import Mathlib

/-!
Shallow embedding of the `python-simple` example of the poltergeist
repository: the `Calculator` class (`src/examples/python-simple/src/calculator.py`)
and the `Statistics` class (`src/examples/python-simple/src/statistics.py`).
Python floats are modelled as rationals (reals for the one square root),
`raise ValueError(msg)` as `Except.error (Err.InvalidArgument msg)`.
-/

/-- The single error kind of the spec: `ValueError` in the Python source,
carrying its message. -/
inductive Err where
  | InvalidArgument : String → Err
deriving DecidableEq, Repr

instance {ε α : Type} [DecidableEq ε] [DecidableEq α] : DecidableEq (Except ε α) := fun a b =>
  match a, b with
  | .error e₁, .error e₂ =>
      if h : e₁ = e₂ then .isTrue (by rw [h]) else .isFalse (by simp [h])
  | .error _, .ok _ => .isFalse (by simp)
  | .ok _, .error _ => .isFalse (by simp)
  | .ok a₁, .ok a₂ =>
      if h : a₁ = a₂ then .isTrue (by rw [h]) else .isFalse (by simp [h])

namespace Calculator

/-- `Calculator.add`: `return a + b`. -/
def add (a b : ℚ) : ℚ := a + b

/-- `Calculator.subtract`: `return a - b`. -/
def subtract (a b : ℚ) : ℚ := a - b

/-- `Calculator.multiply`: `return a * b`. -/
def multiply (a b : ℚ) : ℚ := a * b

/-- `Calculator.divide`: raises on `b == 0`, otherwise `return a / b`. -/
def divide (a b : ℚ) : Except Err ℚ :=
  if b = 0 then .error (.InvalidArgument ("Division by zero is not allowed"))
  else .ok (a / b)

/-- `Calculator.factorial`: raises on `n < 0`, returns 1 for `n ∈ {0, 1}`,
otherwise runs `result = 1; for i in range(2, n + 1): result *= i`.
`range(2, n + 1)` is `List.range' 2 (n.toNat - 1)` (the integers `2 .. n`). -/
def factorial (n : ℤ) : Except Err ℤ :=
  if n < 0 then .error (.InvalidArgument ("Factorial is not defined for negative numbers"))
  else if n = 0 ∨ n = 1 then .ok 1
  else .ok ((List.range' 2 (n.toNat - 1)).foldl (fun (result : ℤ) (i : ℕ) => result * (i : ℤ)) 1)

end Calculator

namespace Statistics

/-- `Statistics.mean`: raises on empty input, otherwise `sum(data) / len(data)`. -/
def mean (data : List ℚ) : Except Err ℚ :=
  if data = [] then .error (.InvalidArgument ("Cannot calculate mean of empty list"))
  else .ok (data.sum / (data.length : ℚ))

/-- `Statistics.median`: raises on empty input, otherwise sorts a copy and takes
the middle element (odd length) or the average of the two middle elements
(even length). Python's `sorted` is modelled by `List.insertionSort (· ≤ ·)`
(any stable sort; the result is the unique `≤`-sorted permutation). -/
def median (data : List ℚ) : Except Err ℚ :=
  if data = [] then .error (.InvalidArgument ("Cannot calculate median of empty list"))
  else
    let sorted_data := data.insertionSort (· ≤ ·)
    let n := sorted_data.length
    if n % 2 = 0 then
      .ok ((sorted_data.getD (n / 2 - 1) 0 + sorted_data.getD (n / 2) 0) / 2)
    else .ok (sorted_data.getD (n / 2) 0)

/-- `Statistics.variance`: raises on empty input, otherwise
`avg = self.mean(data)` and `sum((x - avg) ** 2 for x in data) / len(data)`;
an exception raised by `self.mean` would propagate (the error branch). -/
def variance (data : List ℚ) : Except Err ℚ :=
  if data = [] then .error (.InvalidArgument ("Cannot calculate variance of empty list"))
  else
    match mean data with
    | .error e => .error e
    | .ok avg => .ok ((data.map (fun x => (x - avg) ^ 2)).sum / (data.length : ℚ))

/-- `Statistics.std_dev`: `return self.variance(data) ** 0.5`; the Python real
power `** 0.5` is `Real.rpow` at exponent `0.5`, and an exception raised by
`self.variance` propagates (the error branch). -/
noncomputable def std_dev (data : List ℚ) : Except Err ℝ :=
  match variance data with
  | .error e => .error e
  | .ok v => .ok ((v : ℝ) ^ (0.5 : ℝ))

/-- Python's builtin `min` over a (nonempty) list; 0 on `[]`, never reached. -/
def listMin : List ℚ → ℚ
  | [] => 0
  | x :: xs => xs.foldl min x

/-- Python's builtin `max` over a (nonempty) list; 0 on `[]`, never reached. -/
def listMax : List ℚ → ℚ
  | [] => 0
  | x :: xs => xs.foldl max x

/-- `Statistics.min_max_normalize`: `[]` on empty input; `[0.5] * len(data)`
when `max == min`; otherwise `[(x - min_val) / (max_val - min_val) for x in data]`. -/
def min_max_normalize (data : List ℚ) : List ℚ :=
  if data = [] then []
  else
    let min_val := listMin data
    let max_val := listMax data
    if max_val = min_val then List.replicate data.length (0.5 : ℚ)
    else data.map (fun x => (x - min_val) / (max_val - min_val))

end Statistics

section Theorems

open Calculator Statistics

/-- The loop `result = 1; for i in range(2, k + 1): result *= i` computes `(k + 1)!`
when run over `range' 2 k = [2, …, k + 1]`. -/
lemma foldl_range'_mul (k : ℕ) :
    (List.range' 2 k).foldl (fun (result : ℤ) (i : ℕ) => result * (i : ℤ)) 1 =
      ((k + 1).factorial : ℤ) := by
  induction k with
  | zero => simp [Nat.factorial]
  | succ k ih =>
      rw [List.range'_concat, List.foldl_append, ih]
      simp only [List.foldl_cons, List.foldl_nil, Nat.factorial_succ]
      push_cast
      ring

lemma mean_eval : mean [1, 2, 3, 4, 5] = .ok 3 := by
  unfold mean
  rw [if_neg (by decide)]
  norm_num

lemma variance_eval : variance [1, 2, 3, 4, 5] = .ok 2 := by
  unfold variance
  rw [if_neg (by decide), mean_eval]
  norm_num

/-- C6: `divide(a, b)` fails with `InvalidArgument` exactly when `b = 0`,
and otherwise returns `a / b`. -/
theorem divide_spec (a b : ℚ) :
    ((∃ msg, divide a b = .error (.InvalidArgument msg)) ↔ b = 0) ∧
    (b ≠ 0 → divide a b = .ok (a / b)) := by
  constructor
  · constructor
    · rintro ⟨msg, hmsg⟩
      by_contra hb
      simp [divide, hb] at hmsg
    · intro hb
      exact ⟨"Division by zero is not allowed", by simp [divide, hb]⟩
  · intro hb
    simp [divide, hb]

/-- C6 witness: at `a = 3, b = 0` the divide fails; at `a = 3, b = 2` it
returns `3 / 2`. -/
theorem divide_spec_witness :
    (∃ msg, divide 3 0 = .error (.InvalidArgument msg)) ∧ divide 3 2 = .ok (3 / 2) :=
  ⟨(divide_spec 3 0).1.2 rfl, (divide_spec 3 2).2 (by norm_num)⟩

/-- C8: `subtract(add(a, b), b) = a` for all rationals, and
`divide(multiply(a, b), b) = ok a` whenever `b ≠ 0` (exact equality in the
rational model, hence within any floating-point tolerance). -/
theorem add_subtract_multiply_divide_roundtrip (a b : ℚ) :
    subtract (add a b) b = a ∧ (b ≠ 0 → divide (multiply a b) b = .ok a) := by
  constructor
  · simp [subtract, add]
  · intro hb
    simp only [divide, multiply, if_neg hb]
    rw [mul_div_assoc, div_self hb, mul_one]

/-- C8 witness: the round trips at `a = 7, b = 3`. -/
theorem add_subtract_multiply_divide_roundtrip_witness :
    subtract (add 7 3) 3 = 7 ∧ divide (multiply 7 3) 3 = .ok 7 :=
  ⟨(add_subtract_multiply_divide_roundtrip 7 3).1,
   (add_subtract_multiply_divide_roundtrip 7 3).2 (by norm_num)⟩

/-- C5: `factorial(n)` fails with `InvalidArgument` when `n < 0`, returns 1 when
`n` is 0 or 1, and otherwise returns `n!` (the iterative product over `2..n`). -/
theorem factorial_spec (n : ℤ) :
    (n < 0 → factorial n =
      .error (.InvalidArgument ("Factorial is not defined for negative numbers"))) ∧
    (n = 0 ∨ n = 1 → factorial n = .ok 1) ∧
    (0 ≤ n → factorial n = .ok ((n.toNat.factorial : ℤ))) := by
  refine ⟨fun hn => ?_, fun hn => ?_, fun hn => ?_⟩
  · unfold factorial
    rw [if_pos hn]
  · rcases hn with rfl | rfl <;> decide
  · unfold factorial
    rw [if_neg (not_lt.mpr hn)]
    by_cases h01 : n = 0 ∨ n = 1
    · rw [if_pos h01]
      rcases h01 with rfl | rfl <;> decide
    · rw [if_neg h01]
      have h2 : 2 ≤ n := by omega
      have hk : n.toNat - 1 + 1 = n.toNat := by omega
      rw [foldl_range'_mul, hk]

/-- C5 witness: `factorial(-1)` fails, `factorial(0) = 1`, `factorial(10) = 3628800`. -/
theorem factorial_spec_witness :
    factorial (-1) =
      .error (.InvalidArgument ("Factorial is not defined for negative numbers")) ∧
    factorial 0 = .ok 1 ∧ factorial 10 = .ok 3628800 :=
  ⟨(factorial_spec (-1)).1 (by decide), (factorial_spec 0).2.1 (Or.inl rfl),
   by rw [(factorial_spec 10).2.2 (by decide)]; decide⟩

/-- C7: `mean` of a non-empty sequence is `sum(data) / len(data)`, and `mean`,
`median`, `variance`, `std_dev` all fail with `InvalidArgument` on `[]`. -/
theorem mean_spec :
    (∀ d : List ℚ, d ≠ [] → mean d = .ok (d.sum / (d.length : ℚ))) ∧
    mean [] = .error (.InvalidArgument ("Cannot calculate mean of empty list")) ∧
    median [] = .error (.InvalidArgument ("Cannot calculate median of empty list")) ∧
    variance [] = .error (.InvalidArgument ("Cannot calculate variance of empty list")) ∧
    std_dev [] = .error (.InvalidArgument ("Cannot calculate variance of empty list")) := by
  refine ⟨fun d hd => ?_, rfl, rfl, rfl, rfl⟩
  unfold mean
  rw [if_neg hd]

/-- C7 witness: `mean([1,2,3,4,5])` as the quotient of its sum by its length. -/
theorem mean_spec_witness :
    mean [1, 2, 3, 4, 5] =
      .ok (([1, 2, 3, 4, 5] : List ℚ).sum / (([1, 2, 3, 4, 5] : List ℚ).length : ℚ)) :=
  mean_spec.1 [1, 2, 3, 4, 5] (by decide)

/-- C2 counterexample: on the empty list, `variance` does not return the error
`mean` raises (`mean`'s message names mean, `variance` raises its own message
before ever calling `mean`), so the error is not propagated from `mean`. -/
theorem variance_empty_error_not_from_mean :
    variance [] ≠ mean [] ∧
    variance [] ≠ .error (.InvalidArgument ("Cannot calculate mean of empty list")) := by
  constructor <;> decide

/-- C2 (amended): for non-empty data, `variance` is the mean of the squared
deviations from `mean(data)` (equivalently, their sum divided by `n`, the
biased estimator); on `[]` it fails with `InvalidArgument` raised by its own
emptiness check; `variance([1,2,3,4,5]) = 2`. -/
theorem variance_spec :
    (∀ (d : List ℚ), d ≠ [] → ∀ μ, mean d = .ok μ →
      variance d = mean (d.map (fun x => (x - μ) ^ 2)) ∧
      variance d = .ok ((d.map (fun x => (x - μ) ^ 2)).sum / (d.length : ℚ))) ∧
    variance [] = .error (.InvalidArgument ("Cannot calculate variance of empty list")) ∧
    variance [1, 2, 3, 4, 5] = .ok 2 := by
  refine ⟨fun d hd μ hμ => ?_, rfl, variance_eval⟩
  have hmap : d.map (fun x => (x - μ) ^ 2) ≠ [] := by
    simpa using hd
  have hvar : variance d = .ok ((d.map (fun x => (x - μ) ^ 2)).sum / (d.length : ℚ)) := by
    unfold variance
    rw [if_neg hd, hμ]
  refine ⟨?_, hvar⟩
  unfold mean
  rw [if_neg hmap, hvar, List.length_map]

/-- C2 witness: `variance([1,2,3,4,5])` is the mean of the squared deviations
from 3, which is 2. -/
theorem variance_spec_witness :
    variance [1, 2, 3, 4, 5] = mean (([1, 2, 3, 4, 5] : List ℚ).map (fun x => (x - 3) ^ 2)) ∧
    variance [1, 2, 3, 4, 5] = .ok 2 :=
  ⟨(variance_spec.1 [1, 2, 3, 4, 5] (by decide) 3 mean_eval).1, variance_spec.2.2⟩

/-- Every successful `variance` result is the length-normalized sum of squares,
hence non-negative. -/
lemma variance_ok_nonneg (d : List ℚ) (v : ℚ) (h : variance d = .ok v) : 0 ≤ v := by
  unfold variance at h
  by_cases hd : d = []
  · rw [if_pos hd] at h
    exact absurd h (by simp)
  · rw [if_neg hd] at h
    cases hm : mean d with
    | error e => rw [hm] at h; exact absurd h (by simp)
    | ok avg =>
        rw [hm] at h
        have hv := Except.ok.inj h
        rw [← hv]
        apply div_nonneg
        · refine List.sum_nonneg ?_
          intro x hx
          obtain ⟨y, _, rfl⟩ := List.mem_map.1 hx
          positivity
        · positivity

/-- C9: for every non-empty sequence, `variance` succeeds with a non-negative
value. -/
theorem variance_nonneg_spec (d : List ℚ) (hd : d ≠ []) :
    ∃ v, variance d = .ok v ∧ 0 ≤ v := by
  obtain ⟨μ, hμ⟩ : ∃ μ, mean d = .ok μ := ⟨_, by unfold mean; rw [if_neg hd]⟩
  have hvar : variance d = .ok ((d.map (fun x => (x - μ) ^ 2)).sum / (d.length : ℚ)) := by
    unfold variance
    rw [if_neg hd, hμ]
  exact ⟨_, hvar, variance_ok_nonneg d _ hvar⟩

/-- C9 witness: at `[1,2,3,4,5]` the variance succeeds with a non-negative value. -/
theorem variance_nonneg_spec_witness :
    ∃ v, variance [1, 2, 3, 4, 5] = .ok v ∧ 0 ≤ v :=
  variance_nonneg_spec [1, 2, 3, 4, 5] (by decide)

/-- C3: `std_dev` is `variance` composed with the real square root (`** 0.5`
equals `Real.sqrt` on the non-negative variance), and it propagates `variance`'s
error unchanged — on `[]` that is variance's `InvalidArgument`. -/
theorem std_dev_spec :
    (∀ (d : List ℚ) (v : ℚ), variance d = .ok v → std_dev d = .ok (Real.sqrt (v : ℝ))) ∧
    (∀ (d : List ℚ) (e : Err), variance d = .error e → std_dev d = .error e) ∧
    std_dev [] = .error (.InvalidArgument ("Cannot calculate variance of empty list")) := by
  refine ⟨fun d v h => ?_, fun d e h => ?_, rfl⟩
  · unfold std_dev
    rw [h, Real.sqrt_eq_rpow]
    norm_num
  · unfold std_dev
    rw [h]

/-- C3 witness: `std_dev([1,2,3,4,5]) = sqrt(2)`. -/
theorem std_dev_spec_witness :
    std_dev [1, 2, 3, 4, 5] = .ok (Real.sqrt ((2 : ℚ) : ℝ)) :=
  std_dev_spec.1 [1, 2, 3, 4, 5] 2 variance_eval

/-- C4: for any sorted permutation `s` of non-empty data, `median` returns the
average of the two central elements of `s` when its length is even, and the
single central element when odd; `median([])` fails with `InvalidArgument`;
`median([1,2,3,4,5]) = 3` and `median([1,2,3,4]) = 2.5`. -/
theorem median_spec :
    (∀ (d s : List ℚ), d ≠ [] → s.Perm d → s.Sorted (· ≤ ·) →
      median d = .ok (if s.length % 2 = 0
        then (s.getD (s.length / 2 - 1) 0 + s.getD (s.length / 2) 0) / 2
        else s.getD (s.length / 2) 0)) ∧
    median [] = .error (.InvalidArgument ("Cannot calculate median of empty list")) ∧
    median [1, 2, 3, 4, 5] = .ok 3 ∧
    median [1, 2, 3, 4] = .ok 2.5 := by
  refine ⟨fun d s hd hp hs => ?_, rfl, ?_, ?_⟩
  · have h1 : s.Perm (d.insertionSort (· ≤ ·)) := hp.trans (List.perm_insertionSort _ d).symm
    have hs2 : (d.insertionSort (· ≤ ·)).Sorted (· ≤ ·) := List.sorted_insertionSort _ d
    have heq : s = d.insertionSort (· ≤ ·) := List.eq_of_perm_of_sorted h1 hs hs2
    subst heq
    unfold median
    rw [if_neg hd, apply_ite Except.ok]
  · unfold median
    rw [if_neg (by decide)]
    norm_num [show List.insertionSort (· ≤ ·) ([1, 2, 3, 4, 5] : List ℚ) = [1, 2, 3, 4, 5]
      from by decide]
  · unfold median
    rw [if_neg (by decide)]
    norm_num [show List.insertionSort (· ≤ ·) ([1, 2, 3, 4] : List ℚ) = [1, 2, 3, 4]
      from by decide]

/-- C4 witness: `median([3,1,2])` via the sorted permutation `[1,2,3]` is its
central element 2. -/
theorem median_spec_witness : median [3, 1, 2] = .ok 2 := by
  have h := median_spec.1 [3, 1, 2] [1, 2, 3] (by decide) (by decide) (by decide)
  simpa using h

lemma foldl_min_le (x : ℚ) (xs : List ℚ) : ∀ y ∈ x :: xs, xs.foldl min x ≤ y := by
  induction xs generalizing x with
  | nil =>
      intro y hy
      rw [List.mem_singleton] at hy
      subst hy
      exact le_refl _
  | cons a xs ih =>
      intro y hy
      rw [List.foldl_cons]
      have hbase : xs.foldl min (min x a) ≤ min x a := ih (min x a) _ (List.mem_cons_self _ _)
      rcases List.mem_cons.1 hy with rfl | hy'
      · exact hbase.trans (min_le_left _ _)
      · rcases List.mem_cons.1 hy' with rfl | hy''
        · exact hbase.trans (min_le_right _ _)
        · exact ih (min x a) y (List.mem_cons_of_mem _ hy'')

lemma foldl_min_mem (x : ℚ) (xs : List ℚ) : xs.foldl min x ∈ x :: xs := by
  induction xs generalizing x with
  | nil => exact List.mem_singleton.2 rfl
  | cons a xs ih =>
      rw [List.foldl_cons]
      rcases List.mem_cons.1 (ih (min x a)) with hEq | hMem
      · rcases min_choice x a with h' | h'
        · rw [hEq, h']; exact List.mem_cons_self _ _
        · rw [hEq, h']; exact List.mem_cons_of_mem _ (List.mem_cons_self _ _)
      · exact List.mem_cons_of_mem _ (List.mem_cons_of_mem _ hMem)

lemma le_foldl_max (x : ℚ) (xs : List ℚ) : ∀ y ∈ x :: xs, y ≤ xs.foldl max x := by
  induction xs generalizing x with
  | nil =>
      intro y hy
      rw [List.mem_singleton] at hy
      subst hy
      exact le_refl _
  | cons a xs ih =>
      intro y hy
      rw [List.foldl_cons]
      have hbase : max x a ≤ xs.foldl max (max x a) := ih (max x a) _ (List.mem_cons_self _ _)
      rcases List.mem_cons.1 hy with rfl | hy'
      · exact (le_max_left _ _).trans hbase
      · rcases List.mem_cons.1 hy' with rfl | hy''
        · exact (le_max_right _ _).trans hbase
        · exact ih (max x a) y (List.mem_cons_of_mem _ hy'')

lemma foldl_max_mem (x : ℚ) (xs : List ℚ) : xs.foldl max x ∈ x :: xs := by
  induction xs generalizing x with
  | nil => exact List.mem_singleton.2 rfl
  | cons a xs ih =>
      rw [List.foldl_cons]
      rcases List.mem_cons.1 (ih (max x a)) with hEq | hMem
      · rcases max_choice x a with h' | h'
        · rw [hEq, h']; exact List.mem_cons_self _ _
        · rw [hEq, h']; exact List.mem_cons_of_mem _ (List.mem_cons_self _ _)
      · exact List.mem_cons_of_mem _ (List.mem_cons_of_mem _ hMem)

lemma listMin_le (d : List ℚ) (y : ℚ) (hy : y ∈ d) : listMin d ≤ y := by
  cases d with
  | nil => exact absurd hy (List.not_mem_nil y)
  | cons x xs => exact foldl_min_le x xs y hy

lemma le_listMax (d : List ℚ) (y : ℚ) (hy : y ∈ d) : y ≤ listMax d := by
  cases d with
  | nil => exact absurd hy (List.not_mem_nil y)
  | cons x xs => exact le_foldl_max x xs y hy

lemma listMin_mem (d : List ℚ) (hd : d ≠ []) : listMin d ∈ d := by
  cases d with
  | nil => exact absurd rfl hd
  | cons x xs => exact foldl_min_mem x xs

lemma listMax_mem (d : List ℚ) (hd : d ≠ []) : listMax d ∈ d := by
  cases d with
  | nil => exact absurd rfl hd
  | cons x xs => exact foldl_max_mem x xs

/-- For non-empty data, all elements are equal exactly when `max(data) == min(data)`,
the guard of `min_max_normalize`. -/
lemma allEq_iff_max_eq_min (d : List ℚ) (hd : d ≠ []) :
    (∀ a ∈ d, ∀ b ∈ d, a = b) ↔ listMax d = listMin d := by
  constructor
  · intro h
    exact h _ (listMax_mem d hd) _ (listMin_mem d hd)
  · intro h a ha b hb
    have ha' : a = listMin d :=
      le_antisymm (h ▸ le_listMax d a ha) (listMin_le d a ha)
    have hb' : b = listMin d :=
      le_antisymm (h ▸ le_listMax d b hb) (listMin_le d b hb)
    rw [ha', hb']

lemma listMin_lt_listMax (d : List ℚ) (hd : d ≠ [])
    (hne : ¬ (∀ a ∈ d, ∀ b ∈ d, a = b)) : listMin d < listMax d := by
  rcases lt_or_eq_of_le (listMin_le d _ (listMax_mem d hd)) with h | h
  · exact h
  · exact absurd ((allEq_iff_max_eq_min d hd).2 h.symm) hne

/-- For non-empty, not-all-equal data, `min_max_normalize` takes the scaling
branch. -/
lemma min_max_normalize_map (d : List ℚ) (hd : d ≠ [])
    (hne : ¬ (∀ a ∈ d, ∀ b ∈ d, a = b)) :
    min_max_normalize d = d.map (fun x => (x - listMin d) / (listMax d - listMin d)) := by
  unfold min_max_normalize
  rw [if_neg hd, if_neg (by
    intro h
    exact hne ((allEq_iff_max_eq_min d hd).2 h))]

/-- C1: `min_max_normalize` returns `[]` on `[]`; a constant list of `0.5` of
the input's length when all elements are equal; and otherwise the order- and
length-preserving list of `(x - min) / (max - min)`, all values within `[0, 1]`. -/
theorem min_max_normalize_spec :
    min_max_normalize [] = [] ∧
    (∀ d : List ℚ, d ≠ [] → (∀ a ∈ d, ∀ b ∈ d, a = b) →
      min_max_normalize d = List.replicate d.length (0.5 : ℚ)) ∧
    (∀ d : List ℚ, d ≠ [] → ¬ (∀ a ∈ d, ∀ b ∈ d, a = b) →
      min_max_normalize d = d.map (fun x => (x - listMin d) / (listMax d - listMin d)) ∧
      (min_max_normalize d).length = d.length ∧
      ∀ y ∈ min_max_normalize d, 0 ≤ y ∧ y ≤ 1) := by
  refine ⟨rfl, fun d hd hall => ?_, fun d hd hne => ?_⟩
  · unfold min_max_normalize
    rw [if_neg hd, if_pos ((allEq_iff_max_eq_min d hd).1 hall)]
  · have hmap := min_max_normalize_map d hd hne
    have hlt := listMin_lt_listMax d hd hne
    have hpos : 0 < listMax d - listMin d := sub_pos.2 hlt
    refine ⟨hmap, by rw [hmap, List.length_map], ?_⟩
    intro y hy
    rw [hmap] at hy
    obtain ⟨x, hx, rfl⟩ := List.mem_map.1 hy
    constructor
    · exact div_nonneg (sub_nonneg.2 (listMin_le d x hx)) hpos.le
    · rw [div_le_one hpos]
      exact sub_le_sub_right (le_listMax d x hx) _

/-- C1 witness: `min_max_normalize([5,5,5]) = [0.5, 0.5, 0.5]` and
`min_max_normalize([1,2,3,4,5])` is the scaled list. -/
theorem min_max_normalize_spec_witness :
    min_max_normalize [5, 5, 5] = List.replicate 3 (0.5 : ℚ) ∧
    min_max_normalize [1, 2, 3, 4, 5] =
      ([1, 2, 3, 4, 5] : List ℚ).map
        (fun x => (x - listMin [1, 2, 3, 4, 5]) / (listMax [1, 2, 3, 4, 5] - listMin [1, 2, 3, 4, 5])) :=
  ⟨min_max_normalize_spec.2.1 [5, 5, 5] (by decide) (by decide),
   (min_max_normalize_spec.2.2 [1, 2, 3, 4, 5] (by decide) (by decide)).1⟩

/-- C10: for non-empty, not-all-equal data, normalization sends every position
holding the minimum to exactly 0 and every position holding the maximum to
exactly 1, and both endpoint values 0 and 1 occur in the output. -/
theorem min_max_normalize_endpoints (d : List ℚ) (hd : d ≠ [])
    (hne : ¬ (∀ a ∈ d, ∀ b ∈ d, a = b)) :
    (∀ i, i < d.length → d.getD i 0 = listMin d → (min_max_normalize d).getD i 0 = 0) ∧
    (∀ i, i < d.length → d.getD i 0 = listMax d → (min_max_normalize d).getD i 0 = 1) ∧
    (0 : ℚ) ∈ min_max_normalize d ∧ (1 : ℚ) ∈ min_max_normalize d := by
  have hmap := min_max_normalize_map d hd hne
  have hpos : 0 < listMax d - listMin d :=
    sub_pos.2 (listMin_lt_listMax d hd hne)
  have hmin0 : (listMin d - listMin d) / (listMax d - listMin d) = 0 := by
    rw [sub_self, zero_div]
  have hmax1 : (listMax d - listMin d) / (listMax d - listMin d) = 1 :=
    div_self hpos.ne'
  refine ⟨fun i hi hval => ?_, fun i hi hval => ?_, ?_, ?_⟩
  · rw [hmap, List.getD_eq_getElem _ 0 (by simpa using hi), List.getElem_map,
      ← List.getD_eq_getElem _ 0 hi, hval, hmin0]
  · rw [hmap, List.getD_eq_getElem _ 0 (by simpa using hi), List.getElem_map,
      ← List.getD_eq_getElem _ 0 hi, hval, hmax1]
  · rw [hmap]
    exact List.mem_map.2 ⟨listMin d, listMin_mem d hd, hmin0⟩
  · rw [hmap]
    exact List.mem_map.2 ⟨listMax d, listMax_mem d hd, hmax1⟩

/-- C10 witness: in `min_max_normalize([1,2,3])` position 0 (the minimum) maps
to 0, position 2 (the maximum) maps to 1, and both 0 and 1 occur. -/
theorem min_max_normalize_endpoints_witness :
    (min_max_normalize [1, 2, 3]).getD 0 0 = 0 ∧
    (min_max_normalize [1, 2, 3]).getD 2 0 = 1 ∧
    (0 : ℚ) ∈ min_max_normalize [1, 2, 3] ∧ (1 : ℚ) ∈ min_max_normalize [1, 2, 3] := by
  have h := min_max_normalize_endpoints [1, 2, 3] (by decide) (by decide)
  exact ⟨h.1 0 (by decide) (by decide), h.2.1 2 (by decide) (by decide), h.2.2⟩

end Theorems
